import Mathlib

/-!
Verification development for the playback orchestrator of the music-lib
repository.  The player context (`PlayerProvider` in the shuffle-enabled
`PlayerContext.tsx`) is embedded as pure state-transition functions on a
`PlayerState` record; the sleep timer of `Player.tsx` is embedded as
transition functions on a `SleepState` record.  JavaScript `number | null`
index fields become `Option Int` (the `findIndex` sentinel `-1` is kept as
the integer `-1`), `Math.random()` draws are supplied by an explicit oracle
stream `rng`, and JavaScript object identity (needed for the repeat-one
auto-advance behaviour of `setCurrentTrack` with a spread copy) is modelled
by tagging every track object with an allocation number `ref` drawn from a
counter `objCtr` in the state.
-/

namespace MusicLib

inductive RepeatMode where
  | none
  | all
  | one
deriving DecidableEq

structure Track where
  id : String
  url : String
  title : String
  addedAt : Option String
deriving DecidableEq

/-- A JavaScript object holding a track: content plus object identity. -/
structure TrackObj where
  track : Track
  ref : Nat
deriving DecidableEq

structure PlayerState where
  currentTrack : Option TrackObj
  isPlaying : Bool
  volume : Rat
  isMuted : Bool
  tracks : List TrackObj
  currentTrackIndex : Option Int
  repeatMode : RepeatMode
  shuffleMode : Bool
  shuffleBag : List Int
  shuffleHistory : List Int
  shuffleCycleComplete : Bool
  rng : List Nat
  objCtr : Nat
deriving DecidableEq

/-- JavaScript array indexing `l[i]` with a signed index: negative indices
give `undefined`. -/
def jsIndex (l : List TrackObj) (i : Int) : Option TrackObj :=
  if 0 ≤ i then l.get? i.toNat else Option.none

/-- `tracks.map((_, i) => i).filter((i) => i !== currentIndex)` -/
def refillList (len : Nat) (currentIndex : Option Int) : List Int :=
  ((List.range len).map (fun i : Nat => (i : Int))).filter
    (fun i => decide (Option.some i ≠ currentIndex))

/-- `history.push(x); if (history.length > 50) history.shift();` -/
def pushHistory (h : List Int) (x : Int) : List Int :=
  let h2 := h ++ [x]
  if h2.length > 50 then h2.tail else h2

/-- `getNextShuffleIndex(currentIndex, allowRefillAfterCycle)`: returns the
drawn index (`-1` meaning EXHAUSTED) together with the updated state. -/
def getNextShuffleIndex (st : PlayerState) (currentIndex : Option Int)
    (allowRefillAfterCycle : Bool) : Int × PlayerState :=
  if st.shuffleBag.length = 0 ∧ st.shuffleCycleComplete = true ∧
      allowRefillAfterCycle = false then
    (-1, st)
  else
    let st1 : PlayerState :=
      if st.shuffleBag.length = 0 then
        { st with shuffleBag := refillList st.tracks.length currentIndex }
      else st
    if st1.shuffleBag.length = 0 then
      ((if allowRefillAfterCycle then currentIndex.getD 0 else -1),
       { st1 with shuffleCycleComplete := true })
    else
      let randomBagIndex := st1.rng.headD 0 % st1.shuffleBag.length
      let nextIndex := st1.shuffleBag.getD randomBagIndex 0
      let newBag := st1.shuffleBag.eraseIdx randomBagIndex
      (nextIndex,
       { st1 with shuffleBag := newBag, rng := st1.rng.tail,
                  shuffleCycleComplete :=
                    if newBag.length = 0 then true else st1.shuffleCycleComplete })

/-- `setTracks(newTracks)`: replaces the queue and resets the shuffle bag,
the history and the cycle-complete flag. -/
def setTracks (st : PlayerState) (newTracks : List TrackObj) : PlayerState :=
  { st with tracks := newTracks, shuffleBag := [], shuffleHistory := [],
            shuffleCycleComplete := false }

/-- `playTrack(track)` -/
def playTrack (st : PlayerState) (t : TrackObj) : PlayerState :=
  let index : Int :=
    match st.tracks.findIdx? (fun t2 => decide (t2.track.id = t.track.id)) with
    | Option.some i => (i : Int)
    | Option.none => -1
  let st1 : PlayerState :=
    match st.currentTrackIndex with
    | Option.some ci => { st with shuffleHistory := pushHistory st.shuffleHistory ci }
    | Option.none => st
  { st1 with currentTrack := Option.some t, currentTrackIndex := Option.some index,
             isPlaying := true }

/-- The shared tail of `playNext`: bounds-check and assignment, manual
flavour (no stop on bounds failure). -/
def applyNav (st : PlayerState) (nextIndex : Int) : PlayerState :=
  if 0 ≤ nextIndex ∧ nextIndex < (st.tracks.length : Int) then
    match jsIndex st.tracks nextIndex with
    | Option.some nt =>
        { st with currentTrack := Option.some nt,
                  currentTrackIndex := Option.some nextIndex, isPlaying := true }
    | Option.none => st
  else st

/-- The shared tail of `playNextAuto`: bounds-check and assignment, auto
flavour (stops playback on bounds failure). -/
def applyNavAuto (st : PlayerState) (nextIndex : Int) : PlayerState :=
  if 0 ≤ nextIndex ∧ nextIndex < (st.tracks.length : Int) then
    match jsIndex st.tracks nextIndex with
    | Option.some nt =>
        { st with currentTrack := Option.some nt,
                  currentTrackIndex := Option.some nextIndex, isPlaying := true }
    | Option.none => st
  else { st with isPlaying := false }

/-- `playNext()` (manual next). -/
def playNext (st : PlayerState) : PlayerState :=
  match st.currentTrackIndex with
  | Option.none => st
  | Option.some ci =>
    if st.tracks.length = 0 then st
    else
      let st1 : PlayerState :=
        { st with shuffleHistory := pushHistory st.shuffleHistory ci }
      if st.shuffleMode then
        let shouldRefill : Bool := decide (st.repeatMode = RepeatMode.all)
        let res := getNextShuffleIndex st1 (Option.some ci) shouldRefill
        if res.1 = -1 then res.2
        else applyNav res.2 res.1
      else
        let nextIndex0 : Int := ci + 1
        let nextIndex : Int :=
          if st.repeatMode = RepeatMode.all ∧ (st.tracks.length : Int) ≤ nextIndex0
          then 0 else nextIndex0
        applyNav st1 nextIndex

/-- `playNextAuto()` (auto-advance on track completion). -/
def playNextAuto (st : PlayerState) : PlayerState :=
  match st.currentTrackIndex with
  | Option.none => st
  | Option.some ci =>
    if st.tracks.length = 0 then st
    else if st.repeatMode = RepeatMode.one then
      match jsIndex st.tracks ci with
      | Option.some cht =>
          { st with currentTrack := Option.some { cht with ref := st.objCtr },
                    objCtr := st.objCtr + 1, isPlaying := true }
      | Option.none => st
    else
      let st1 : PlayerState :=
        { st with shuffleHistory := pushHistory st.shuffleHistory ci }
      if st.shuffleMode then
        let shouldRefill : Bool := decide (st.repeatMode = RepeatMode.all)
        let res := getNextShuffleIndex st1 (Option.some ci) shouldRefill
        if res.1 = -1 then { res.2 with isPlaying := false }
        else applyNavAuto res.2 res.1
      else
        let nextIndex0 : Int := ci + 1
        let nextIndex : Int :=
          if st.repeatMode = RepeatMode.all ∧ (st.tracks.length : Int) ≤ nextIndex0
          then 0 else nextIndex0
        applyNavAuto st1 nextIndex

/-- `playPrevious()` -/
def playPrevious (st : PlayerState) : PlayerState :=
  match st.currentTrackIndex with
  | Option.none => st
  | Option.some ci =>
    if st.tracks.length = 0 then st
    else if st.shuffleMode then
      match st.shuffleHistory.getLast? with
      | Option.none => st
      | Option.some prevIndex =>
        let popped := st.shuffleHistory.dropLast
        match jsIndex st.tracks prevIndex with
        | Option.some pt =>
            let newBag :=
              if st.shuffleBag.contains ci then st.shuffleBag
              else st.shuffleBag ++ [ci]
            { st with shuffleHistory := popped, shuffleBag := newBag,
                      currentTrack := Option.some pt,
                      currentTrackIndex := Option.some prevIndex, isPlaying := true }
        | Option.none => { st with shuffleHistory := popped }
    else if 0 < ci then
      match jsIndex st.tracks (ci - 1) with
      | Option.some pt =>
          { st with currentTrack := Option.some pt,
                    currentTrackIndex := Option.some (ci - 1), isPlaying := true }
      | Option.none => st
    else st

def togglePlayPause (st : PlayerState) : PlayerState :=
  { st with isPlaying := !st.isPlaying }

def toggleMute (st : PlayerState) : PlayerState :=
  { st with isMuted := !st.isMuted }

def toggleRepeatMode (st : PlayerState) : PlayerState :=
  { st with repeatMode :=
      match st.repeatMode with
      | RepeatMode.none => RepeatMode.all
      | RepeatMode.all => RepeatMode.one
      | RepeatMode.one => RepeatMode.none }

/-- `toggleShuffleMode()`: flips the flag and resets bag, history and
cycle-complete flag. -/
def toggleShuffleMode (st : PlayerState) : PlayerState :=
  { st with shuffleMode := !st.shuffleMode, shuffleBag := [], shuffleHistory := [],
            shuffleCycleComplete := false }

def setVolumeState (st : PlayerState) (v : Rat) : PlayerState :=
  { st with volume := v }

/-- The initial provider state (`useState` initialisers), parameterised by
the randomness oracle. -/
def initPlayerState (rng : List Nat) : PlayerState :=
  { currentTrack := Option.none, isPlaying := false, volume := 1,
    isMuted := false, tracks := [], currentTrackIndex := Option.none,
    repeatMode := RepeatMode.none, shuffleMode := false, shuffleBag := [],
    shuffleHistory := [], shuffleCycleComplete := false, rng := rng, objCtr := 0 }

/-- Sleep timer state of the `Player` component, together with the
context-owned `volume` and `isPlaying` values it drives. -/
structure SleepState where
  sleepDuration : Nat
  sleepRemaining : Nat
  isFadingOut : Bool
  originalVolume : Rat
  volume : Rat
  isPlaying : Bool
deriving DecidableEq

/-- `SLEEP_OPTIONS = [0, 15, 30, 60, 120]` (minutes, `0` = off). -/
def SLEEP_OPTIONS : List Nat := [0, 15, 30, 60, 120]

/-- `toggleSleepTimer()`: steps to the next duration of the fixed cycle,
re-arms the countdown, clears the fading flag and, when arming to a
non-zero duration, captures the current volume as the restore point. -/
def toggleSleepTimer (s : SleepState) : SleepState :=
  let currentIndex : Int :=
    match SLEEP_OPTIONS.findIdx? (fun x => decide (x = s.sleepDuration)) with
    | Option.some i => (i : Int)
    | Option.none => -1
  let nextIndex : Nat := ((currentIndex + 1) % 5).toNat
  let nextDuration := SLEEP_OPTIONS.getD nextIndex 0
  { s with sleepDuration := nextDuration,
           sleepRemaining := nextDuration * 60,
           isFadingOut := false,
           originalVolume := if 0 < nextDuration then s.volume else s.originalVolume }

/-- One second of the countdown interval followed by the volume-fade
effect.  The interval only exists while `sleepRemaining > 0 && isPlaying`;
on expiry it calls `onPlayPause()`, resets the duration, clears the fading
flag and restores the captured volume; otherwise it decrements, raising the
fading flag once the pre-tick value is `≤ 30`.  The fade effect then
recomputes `volume = max 0 (originalVolume * remaining / 30)` whenever the
fading flag is set and time remains; `sleepFade` is that volume-fade
effect and `sleepTick` one countdown step followed by it. -/
def sleepFade (s : SleepState) : SleepState :=
  if s.isFadingOut = true ∧ 0 < s.sleepRemaining then
    { s with volume := max 0 (s.originalVolume * (s.sleepRemaining : Rat) / 30) }
  else s

def sleepTick (s : SleepState) : SleepState :=
  if s.sleepRemaining = 0 ∨ s.isPlaying = false then s
  else if s.sleepRemaining ≤ 1 then
    { s with isPlaying := !s.isPlaying, sleepDuration := 0, isFadingOut := false,
             volume := s.originalVolume, sleepRemaining := 0 }
  else
    sleepFade
      { s with isFadingOut := if s.sleepRemaining ≤ 30 then true else s.isFadingOut,
               sleepRemaining := s.sleepRemaining - 1 }

def sleepTicks : Nat → SleepState → SleepState
  | 0, s => s
  | n + 1, s => sleepTicks n (sleepTick s)

/-- The user moving the volume slider (`onVolumeChange`). -/
def sleepSetVolume (s : SleepState) (v : Rat) : SleepState :=
  { s with volume := v }

/-- `onPlayPause()` as seen by the sleep timer. -/
def sleepTogglePlay (s : SleepState) : SleepState :=
  { s with isPlaying := !s.isPlaying }

/-- Initial component state: timer off, context volume `1`, the volume ref
initialised from the volume prop, paused. -/
def initSleepState : SleepState :=
  { sleepDuration := 0, sleepRemaining := 0, isFadingOut := false,
    originalVolume := 1, volume := 1, isPlaying := false }

/-! Iterators and observers used to state the claims. -/

def playNextIter : Nat → PlayerState → PlayerState
  | 0, st => st
  | n + 1, st => playNextIter n (playNext st)

def playNextAutoIter : Nat → PlayerState → PlayerState
  | 0, st => st
  | n + 1, st => playNextAutoIter n (playNextAuto st)

/-- The navigation calls named by the bounded-history property. -/
inductive NavOp where
  | track (t : TrackObj)
  | nxt
  | auto
deriving DecidableEq

def navStep (st : PlayerState) : NavOp → PlayerState
  | NavOp.track t => playTrack st t
  | NavOp.nxt => playNext st
  | NavOp.auto => playNextAuto st

/-- Ghost observer: the previous current indices a navigation call records
onto the history stack (empty when the call records nothing: unset index,
empty queue, or repeat-one auto-advance). -/
def navRecorded (st : PlayerState) : NavOp → List Int
  | NavOp.track _ =>
    match st.currentTrackIndex with
    | Option.some ci => [ci]
    | Option.none => []
  | NavOp.nxt =>
    match st.currentTrackIndex with
    | Option.some ci => if st.tracks.length = 0 then [] else [ci]
    | Option.none => []
  | NavOp.auto =>
    match st.currentTrackIndex with
    | Option.some ci =>
        if st.tracks.length = 0 then []
        else if st.repeatMode = RepeatMode.one then [] else [ci]
    | Option.none => []

def runNav (st : PlayerState) : List NavOp → PlayerState
  | [] => st
  | op :: ops => runNav (navStep st op) ops

def navRecordedAll (st : PlayerState) : List NavOp → List Int
  | [] => []
  | op :: ops => navRecorded st op ++ navRecordedAll (navStep st op) ops

/-- The last `n` elements of a list, in order. -/
def lastN (n : Nat) (l : List Int) : List Int := l.drop (l.length - n)

/-- The sampling invariant claimed for the shuffle bag: no index in the bag
is the current index. -/
def bagSamplingInvariant (st : PlayerState) : Prop :=
  ∀ i ∈ st.shuffleBag, Option.some i ≠ st.currentTrackIndex

instance (st : PlayerState) : Decidable (bagSamplingInvariant st) := by
  unfold bagSamplingInvariant; infer_instance

/-- Sample track objects used by witnesses and counterexamples. -/
def tA : TrackObj := { track := { id := "a", url := "u1", title := "A", addedAt := Option.none }, ref := 0 }

def tB : TrackObj := { track := { id := "b", url := "u2", title := "B", addedAt := Option.none }, ref := 1 }

def tC : TrackObj := { track := { id := "c", url := "u3", title := "C", addedAt := Option.none }, ref := 2 }

/-- A track object whose id is absent from every sample queue. -/
def tZ : TrackObj := { track := { id := "z", url := "u9", title := "Z", addedAt := Option.none }, ref := 9 }

/-! Technical lemmas about the embedded operations. -/

lemma applyNav_frame (s : PlayerState) (n : Int) :
    (applyNav s n).shuffleBag = s.shuffleBag ∧
    (applyNav s n).shuffleHistory = s.shuffleHistory ∧
    (applyNav s n).tracks = s.tracks ∧
    (applyNav s n).shuffleMode = s.shuffleMode ∧
    (applyNav s n).repeatMode = s.repeatMode ∧
    (applyNav s n).rng = s.rng ∧
    (applyNav s n).shuffleCycleComplete = s.shuffleCycleComplete := by
  unfold applyNav
  by_cases h : 0 ≤ n ∧ n < (s.tracks.length : Int)
  · rw [if_pos h]
    cases hj : jsIndex s.tracks n <;> simp
  · rw [if_neg h]
    simp

lemma mem_refillList {len : Nat} {ci : Option Int} {i : Int}
    (h : i ∈ refillList len ci) : 0 ≤ i ∧ i < (len : Int) := by
  unfold refillList at h
  have h1 := List.mem_of_mem_filter h
  rcases List.mem_map.mp h1 with ⟨j, hj, rfl⟩
  rw [List.mem_range] at hj
  exact ⟨Int.ofNat_nonneg j, by exact_mod_cast hj⟩

lemma mem_refillList_ne {len : Nat} {c i : Int}
    (h : i ∈ refillList len (Option.some c)) : i ≠ c := by
  unfold refillList at h
  simp only [List.mem_filter] at h
  have := of_decide_eq_true h.2
  simpa using this

lemma getNext_exhausted (s : PlayerState) (ci : Option Int)
    (hbag : s.shuffleBag = []) (hcc : s.shuffleCycleComplete = true) :
    getNextShuffleIndex s ci false = (-1, s) := by
  unfold getNextShuffleIndex
  rw [if_pos]
  simp [hbag, hcc]

/-- An empty bag whose refill is also empty (degenerate queue): the sampler
marks the cycle complete and reports the current index when refill-after-
cycle is allowed, EXHAUSTED otherwise. -/
lemma getNext_empty_refill (s : PlayerState) (ci : Option Int) (b : Bool)
    (hbag : s.shuffleBag = [])
    (hnot : s.shuffleCycleComplete = false ∨ b = true)
    (hR : refillList s.tracks.length ci = []) :
    getNextShuffleIndex s ci b =
      ((if b then ci.getD 0 else -1), { s with shuffleCycleComplete := true }) := by
  unfold getNextShuffleIndex
  rcases hnot with hcc | hb
  · rw [if_neg (by simp [hcc])]
    simp [hbag, hR]
  · rw [if_neg (by simp [hb])]
    simp [hbag, hR]

lemma getNext_draw_char (s : PlayerState) (ci : Option Int) (b : Bool)
    (hbag : s.shuffleBag ≠ []) :
    getNextShuffleIndex s ci b =
      (s.shuffleBag.getD (s.rng.headD 0 % s.shuffleBag.length) 0,
       { s with shuffleBag := s.shuffleBag.eraseIdx (s.rng.headD 0 % s.shuffleBag.length),
                rng := s.rng.tail,
                shuffleCycleComplete :=
                  if (s.shuffleBag.eraseIdx (s.rng.headD 0 % s.shuffleBag.length)).length = 0
                  then true else s.shuffleCycleComplete }) := by
  have hlen : ¬ s.shuffleBag.length = 0 := by
    simpa [List.length_eq_zero] using hbag
  simp [getNextShuffleIndex, hlen]

lemma getNext_refill_char (s : PlayerState) (ci : Option Int) (b : Bool)
    (hbag : s.shuffleBag = [])
    (hnot : s.shuffleCycleComplete = false ∨ b = true) :
    getNextShuffleIndex s ci b =
      getNextShuffleIndex
        { s with shuffleBag := refillList s.tracks.length ci } ci b := by
  by_cases hR : refillList s.tracks.length ci = []
  · rcases hnot with hcc | hb
    · simp [getNextShuffleIndex, hbag, hcc, hR]
    · simp [getNextShuffleIndex, hbag, hb, hR]
  · have hRlen : ¬ (refillList s.tracks.length ci).length = 0 := by
      simpa [List.length_eq_zero] using hR
    rcases hnot with hcc | hb
    · simp [getNextShuffleIndex, hbag, hcc, hR, hRlen]
    · simp [getNextShuffleIndex, hbag, hb, hR, hRlen]

/-- C10: when no track is selected or the queue is empty, all three
navigation calls leave the whole player state unchanged. -/
theorem nav_noop_when_unset (st : PlayerState)
    (h : st.currentTrackIndex = Option.none ∨ st.tracks = []) :
    playNext st = st ∧ playNextAuto st = st ∧ playPrevious st = st := by
  rcases h with h | h
  · refine ⟨?_, ?_, ?_⟩ <;> simp [playNext, playNextAuto, playPrevious, h]
  · refine ⟨?_, ?_, ?_⟩ <;>
      cases hci : st.currentTrackIndex <;>
        simp [playNext, playNextAuto, playPrevious, h, hci]

theorem nav_noop_when_unset_witness :
    playNext (initPlayerState []) = initPlayerState [] ∧
    playNextAuto (initPlayerState []) = initPlayerState [] ∧
    playPrevious (initPlayerState []) = initPlayerState [] :=
  nav_noop_when_unset (initPlayerState []) (Or.inl rfl)

lemma jsIndex_zero (a : TrackObj) (l : List TrackObj) :
    jsIndex (a :: l) 0 = Option.some a := by
  simp [jsIndex]

/-- The state used for the C1 counterexample: a two-track queue with the
first track selected. -/
def stC1 : PlayerState :=
  { initPlayerState [] with
      tracks := [tA, tB], currentTrack := Option.some tA,
      currentTrackIndex := Option.some 0, isPlaying := true }

/-- C1 counterexample: `playTrack` with a track absent from the queue sets
the current index to `-1` (the `findIndex` sentinel), not `null`, and the
following `playNext` is not a no-op: it advances to index 0. -/
theorem playTrack_missing_counterexample :
    (playTrack stC1 tZ).currentTrackIndex = Option.some (-1) ∧
    (playTrack stC1 tZ).currentTrackIndex ≠ Option.none ∧
    (playNext (playTrack stC1 tZ)).currentTrackIndex = Option.some 0 ∧
    playNext (playTrack stC1 tZ) ≠ playTrack stC1 tZ := by
  decide

/-- C1 amended: `playTrack` for a track whose id is absent from the queue
stores the sentinel `-1` as the current index; navigation is not disabled
afterwards: with shuffle off and a non-empty queue, `playNext` advances to
index 0, while `playPrevious` leaves the state unchanged. -/
theorem playTrack_missing_amended (st : PlayerState) (t : TrackObj)
    (hmiss : ∀ t2 ∈ st.tracks, t2.track.id ≠ t.track.id)
    (hsh : st.shuffleMode = false) (hne : st.tracks ≠ []) :
    (playTrack st t).currentTrackIndex = Option.some (-1) ∧
    (playNext (playTrack st t)).currentTrackIndex = Option.some 0 ∧
    playPrevious (playTrack st t) = playTrack st t := by
  have hfind : st.tracks.findIdx? (fun t2 => decide (t2.track.id = t.track.id)) =
      Option.none := by
    rw [List.findIdx?_eq_none_iff]
    intro x hx
    simpa using hmiss x hx
  obtain ⟨a, l, htr⟩ : ∃ a l, st.tracks = a :: l := by
    cases h : st.tracks with
    | nil => exact absurd h hne
    | cons a l => exact ⟨a, l, rfl⟩
  have hpt : ∃ h2, playTrack st t =
      { st with shuffleHistory := h2, currentTrack := Option.some t,
                currentTrackIndex := Option.some (-1), isPlaying := true } := by
    unfold playTrack
    rw [hfind]
    cases hci : st.currentTrackIndex with
    | none => exact ⟨st.shuffleHistory, rfl⟩
    | some ci => exact ⟨pushHistory st.shuffleHistory ci, rfl⟩
  obtain ⟨h2, hpt⟩ := hpt
  have hlen : ¬ st.tracks.length = 0 := by rw [htr]; simp
  have hno0 : ¬ ((st.tracks.length : Int) ≤ (-1 : Int) + 1) := by
    rw [htr]; simp
  have hb : (0 : Int) ≤ (-1 : Int) + 1 ∧ ((-1 : Int) + 1) < (st.tracks.length : Int) := by
    constructor
    · omega
    · rw [htr]; simp
  refine ⟨by rw [hpt], ?_, ?_⟩
  · rw [hpt]
    simp only [playNext, hlen, hsh, hno0, if_false, and_false, Bool.false_eq_true,
      decide_False, ite_false]
    simp only [applyNav, hb, if_true, ite_true]
    rw [htr]
    norm_num [jsIndex_zero]
  · rw [hpt]
    have hneg : ¬ ((0 : Int) < -1) := by omega
    simp [playPrevious, hlen, hsh, hneg]

theorem playTrack_missing_amended_witness :
    (playTrack { initPlayerState [] with tracks := [tA, tB] } tZ).currentTrackIndex =
      Option.some (-1) ∧
    (playNext (playTrack { initPlayerState [] with tracks := [tA, tB] } tZ)).currentTrackIndex =
      Option.some 0 ∧
    playPrevious (playTrack { initPlayerState [] with tracks := [tA, tB] } tZ) =
      playTrack { initPlayerState [] with tracks := [tA, tB] } tZ :=
  playTrack_missing_amended { initPlayerState [] with tracks := [tA, tB] } tZ
    (by decide) rfl (by decide)

/-- The state used for the C2 counterexample: two tracks, no shuffle,
repeat off, current index at the last position, empty history. -/
def stC2 : PlayerState :=
  { initPlayerState [] with
      tracks := [tA, tB], currentTrack := Option.some tB,
      currentTrackIndex := Option.some 1, isPlaying := true }

/-- C2 counterexample: a manual `playNext` that cannot advance (last index,
repeat off, no shuffle) still mutates the history stack, so it is not a
state-preserving no-op. -/
theorem manual_next_noop_counterexample :
    (playNext stC2).currentTrackIndex = stC2.currentTrackIndex ∧
    (playNext stC2).isPlaying = true ∧
    stC2.shuffleHistory = [] ∧
    (playNext stC2).shuffleHistory = [1] ∧
    playNext stC2 ≠ stC2 := by
  decide

/-- C2 amended: when manual `playNext` cannot advance (non-shuffled queue at
or past the last index with repeat `none`/`one`, or shuffle reporting
EXHAUSTED — after a completed cycle, or in the degenerate case whose refill
is already empty), it leaves the current track, current index and playback
state unchanged and does not stop playback, but it first pushes the
previous current index onto the history stack, and in the degenerate
shuffle case it additionally marks the shuffle cycle complete. -/
theorem manual_next_blocked_only_pushes_history (st : PlayerState) (ci : Int)
    (hci : st.currentTrackIndex = Option.some ci)
    (htr : st.tracks.length ≠ 0)
    (hrep : st.repeatMode ≠ RepeatMode.all) :
    (st.shuffleMode = false → (st.tracks.length : Int) ≤ ci + 1 →
      playNext st = { st with shuffleHistory := pushHistory st.shuffleHistory ci }) ∧
    (st.shuffleMode = true → st.shuffleBag = [] → st.shuffleCycleComplete = true →
      playNext st = { st with shuffleHistory := pushHistory st.shuffleHistory ci }) ∧
    (st.shuffleMode = true → st.shuffleBag = [] → st.shuffleCycleComplete = false →
      refillList st.tracks.length (Option.some ci) = [] →
      playNext st = { st with shuffleHistory := pushHistory st.shuffleHistory ci,
                              shuffleCycleComplete := true }) := by
  refine ⟨?_, ?_, ?_⟩
  · intro hsh hlast
    unfold playNext
    rw [hci]
    simp only [htr, if_false, hsh, Bool.false_eq_true, ite_false]
    have hcond : ¬ (0 ≤ ci + 1 ∧ ci + 1 < (st.tracks.length : Int)) := by
      rintro ⟨-, hc⟩
      omega
    by_cases hw : st.repeatMode = RepeatMode.all ∧ (st.tracks.length : Int) ≤ ci + 1
    · exact absurd hw.1 hrep
    · rw [if_neg hw]
      unfold applyNav
      rw [if_neg (by simpa using hcond)]
  · intro hsh hbag hcc
    unfold playNext
    rw [hci]
    simp only [htr, if_false, hsh, ite_true]
    have hdec : decide (st.repeatMode = RepeatMode.all) = false := by
      simpa using hrep
    rw [hdec]
    rw [getNext_exhausted
      { st with currentTrackIndex := Option.some ci, shuffleMode := true,
                shuffleHistory := pushHistory st.shuffleHistory ci }
      (Option.some ci) hbag hcc]
    simp
  · intro hsh hbag hcc hR
    unfold playNext
    rw [hci]
    simp only [htr, if_false, ite_false, hsh, if_true, ite_true]
    have hdec : decide (st.repeatMode = RepeatMode.all) = false := by
      simpa using hrep
    rw [hdec]
    rw [getNext_empty_refill
      { st with currentTrackIndex := Option.some ci, shuffleMode := true,
                shuffleHistory := pushHistory st.shuffleHistory ci }
      (Option.some ci) false hbag (Or.inl hcc) hR]
    simp

/-- Witness states for C2: shuffle off at the last index; shuffle on with a
completed cycle (EXHAUSTED); and the degenerate one-track shuffle queue
whose refill is empty. -/
def stC2x : PlayerState :=
  { initPlayerState [] with
      tracks := [tA, tB], currentTrack := Option.some tB,
      currentTrackIndex := Option.some 1, isPlaying := true,
      shuffleMode := true, shuffleCycleComplete := true }

def stC2y : PlayerState :=
  { initPlayerState [] with
      tracks := [tA], currentTrack := Option.some tA,
      currentTrackIndex := Option.some 0, isPlaying := true,
      shuffleMode := true }

theorem manual_next_blocked_only_pushes_history_witness :
    playNext stC2 = { stC2 with shuffleHistory := pushHistory stC2.shuffleHistory 1 } ∧
    playNext stC2x = { stC2x with shuffleHistory := pushHistory stC2x.shuffleHistory 1 } ∧
    playNext stC2y = { stC2y with shuffleHistory := pushHistory stC2y.shuffleHistory 0,
                                  shuffleCycleComplete := true } :=
  ⟨(manual_next_blocked_only_pushes_history stC2 1 rfl (by decide) (by decide)).1
      rfl (by decide),
   (manual_next_blocked_only_pushes_history stC2x 1 rfl (by decide) (by decide)).2.1
      rfl rfl rfl,
   (manual_next_blocked_only_pushes_history stC2y 0 rfl (by decide) (by decide)).2.2
      rfl rfl rfl (by decide)⟩

/-- Fast-forward: while the countdown is above the fade window (more than
31 seconds remain), a tick is a plain decrement. -/
lemma sleepTicks_coast (n : Nat) : ∀ (s : SleepState), s.isPlaying = true →
    s.isFadingOut = false → n + 31 ≤ s.sleepRemaining →
    sleepTicks n s = { s with sleepRemaining := s.sleepRemaining - n } := by
  induction n with
  | zero =>
    intro s _ _ _
    simp [sleepTicks]
  | succ n ih =>
    intro s hp hf hr
    obtain ⟨d, r, f, ov, v, p⟩ := s
    simp only at hp hf hr
    subst hp hf
    have hstep : sleepTick ⟨d, r, false, ov, v, true⟩ =
        ⟨d, r - 1, false, ov, v, true⟩ := by
      unfold sleepTick
      rw [if_neg (by simp; omega), if_neg (by simp; omega)]
      have h30 : ¬ (r ≤ 30) := by omega
      rw [if_neg h30]
      unfold sleepFade
      rw [if_neg (by simp)]
    show sleepTicks n (sleepTick ⟨d, r, false, ov, v, true⟩) = _
    rw [hstep, ih ⟨d, r - 1, false, ov, v, true⟩ rfl rfl (by simp; omega)]
    have harith : r - 1 - n = r - (n + 1) := by omega
    show (⟨d, r - 1 - n, false, ov, v, true⟩ : SleepState) = _
    rw [harith]

/-- The C3 counterexample trace: set the volume to 0.8, start playback,
cycle the sleep timer up to 120 minutes, let it tick into the fade window,
then cycle the toggle back to duration 0. -/
def sC3a : SleepState :=
  toggleSleepTimer (toggleSleepTimer (toggleSleepTimer (toggleSleepTimer
    (sleepTogglePlay (sleepSetVolume initSleepState (4/5))))))

def sC3final : SleepState :=
  toggleSleepTimer (sleepTick (sleepTick (sleepTicks 7169 sC3a)))

/-- C3 counterexample: canceling the sleep timer (cycling the toggle back to
duration 0) clears the fading flag but does not restore the captured
volume: the volume stays at the faded value `0.8 * 29 / 30 = 58/75`. -/
theorem sleep_cancel_counterexample :
    sC3final.sleepDuration = 0 ∧ sC3final.isFadingOut = false ∧
    sC3final.originalVolume = 4/5 ∧ sC3final.volume = 58/75 ∧
    sC3final.volume ≠ sC3final.originalVolume := by
  have h1 : sC3a = ⟨120, 7200, false, 4/5, 4/5, true⟩ := rfl
  have h2 : sleepTicks 7169 sC3a = ⟨120, 31, false, 4/5, 4/5, true⟩ := by
    rw [h1, sleepTicks_coast 7169 _ rfl rfl (by decide)]
    rfl
  have h3 : sC3final =
      ⟨0, 0, false, 4/5, max 0 ((4/5 : Rat) * ((29 : Nat) : Rat) / 30), true⟩ := by
    show toggleSleepTimer (sleepTick (sleepTick (sleepTicks 7169 sC3a))) = _
    rw [h2]
    rfl
  have hv : max (0 : Rat) ((4/5 : Rat) * ((29 : Nat) : Rat) / 30) = 58/75 := by
    rw [max_eq_right (by positivity)]
    norm_num
  rw [h3]
  refine ⟨rfl, rfl, rfl, by simpa using hv, ?_⟩
  simp only [hv]
  norm_num

/-- C3 amended: canceling the sleep timer (cycling the toggle from duration
120 back to 0) resets the duration and remaining time, clears the fading
flag, and leaves both the volume and the captured restore volume untouched
(the capture is restored only on expiry). -/
theorem sleep_cancel_amended (s : SleepState) (h : s.sleepDuration = 120) :
    (toggleSleepTimer s).sleepDuration = 0 ∧
    (toggleSleepTimer s).sleepRemaining = 0 ∧
    (toggleSleepTimer s).isFadingOut = false ∧
    (toggleSleepTimer s).volume = s.volume ∧
    (toggleSleepTimer s).originalVolume = s.originalVolume := by
  have hfind : SLEEP_OPTIONS.findIdx? (fun x => decide (x = s.sleepDuration)) =
      Option.some 4 := by
    rw [h]
    rfl
  unfold toggleSleepTimer
  rw [hfind]
  simp [SLEEP_OPTIONS]

theorem sleep_cancel_amended_witness :
    (toggleSleepTimer ⟨120, 29, true, 4/5, 58/75, true⟩).sleepDuration = 0 ∧
    (toggleSleepTimer ⟨120, 29, true, 4/5, 58/75, true⟩).sleepRemaining = 0 ∧
    (toggleSleepTimer ⟨120, 29, true, 4/5, 58/75, true⟩).isFadingOut = false ∧
    (toggleSleepTimer ⟨120, 29, true, 4/5, 58/75, true⟩).volume =
      (⟨120, 29, true, 4/5, 58/75, true⟩ : SleepState).volume ∧
    (toggleSleepTimer ⟨120, 29, true, 4/5, 58/75, true⟩).originalVolume =
      (⟨120, 29, true, 4/5, 58/75, true⟩ : SleepState).originalVolume :=
  sleep_cancel_amended ⟨120, 29, true, 4/5, 58/75, true⟩ rfl

lemma sleepTick_guard (s : SleepState)
    (h : s.sleepRemaining = 0 ∨ s.isPlaying = false) : sleepTick s = s := by
  unfold sleepTick
  rw [if_pos h]

lemma sleepTick_expiry (s : SleepState) (hp : s.isPlaying = true)
    (h1 : s.sleepRemaining = 1) :
    sleepTick s = { s with isPlaying := !s.isPlaying, sleepDuration := 0,
                           isFadingOut := false, volume := s.originalVolume,
                           sleepRemaining := 0 } := by
  unfold sleepTick
  rw [if_neg (by simp [hp]; omega), if_pos (by omega)]

lemma sleepTick_nofade (s : SleepState) (hp : s.isPlaying = true)
    (_h2 : 2 ≤ s.sleepRemaining) (h30 : ¬ s.sleepRemaining ≤ 30)
    (hf : s.isFadingOut = false) :
    sleepTick s = { s with sleepRemaining := s.sleepRemaining - 1 } := by
  unfold sleepTick
  rw [if_neg (by simp [hp]; omega), if_neg (by omega), if_neg h30]
  unfold sleepFade
  rw [if_neg (by simp [hf])]

lemma sleepTick_fade (s : SleepState) (hp : s.isPlaying = true)
    (h2 : 2 ≤ s.sleepRemaining)
    (hfad : s.sleepRemaining ≤ 30 ∨ s.isFadingOut = true) :
    sleepTick s = { s with isFadingOut := true,
                           sleepRemaining := s.sleepRemaining - 1,
                           volume := max 0 (s.originalVolume *
                             ((s.sleepRemaining - 1 : Nat) : Rat) / 30) } := by
  have hf2 : (if s.sleepRemaining ≤ 30 then true else s.isFadingOut) = true := by
    rcases hfad with h | h
    · rw [if_pos h]
    · split
      · rfl
      · exact h
  unfold sleepTick
  rw [if_neg (by simp [hp]; omega), if_neg (by omega), hf2]
  unfold sleepFade
  rw [if_pos (by exact ⟨rfl, by show 0 < s.sleepRemaining - 1; omega⟩)]

/-- C8 amended: after any countdown tick from a playing state, whenever the
fading flag is set and time remains, the volume equals
`capturedVolume * remaining / 30` clamped to be nonnegative (this covers
every `remaining ≤ 29`; at `remaining = 30` the flag is not yet set and the
user volume persists); and the tick from `remaining = 1` stops playback,
resets the duration, clears the flag and restores the captured volume. -/
theorem sleep_fade_formula (s : SleepState) (hp : s.isPlaying = true) :
    ((sleepTick s).isFadingOut = true → 0 < (sleepTick s).sleepRemaining →
      (sleepTick s).volume =
        max 0 (s.originalVolume * ((sleepTick s).sleepRemaining : Rat) / 30)) ∧
    (s.sleepRemaining = 1 →
      (sleepTick s).isPlaying = false ∧ (sleepTick s).sleepDuration = 0 ∧
      (sleepTick s).isFadingOut = false ∧ (sleepTick s).sleepRemaining = 0 ∧
      (sleepTick s).volume = s.originalVolume) := by
  constructor
  · intro hfad hrem
    by_cases h0 : s.sleepRemaining = 0
    · rw [sleepTick_guard s (Or.inl h0)] at hrem
      exact absurd hrem (by omega)
    · by_cases h1 : s.sleepRemaining ≤ 1
      · have h1' : s.sleepRemaining = 1 := by omega
        rw [sleepTick_expiry s hp h1'] at hfad
        exact absurd hfad (by simp)
      · by_cases hcan : s.sleepRemaining ≤ 30 ∨ s.isFadingOut = true
        · rw [sleepTick_fade s hp (by omega) hcan]
        · push_neg at hcan
          obtain ⟨h30, hf⟩ := hcan
          have hf' : s.isFadingOut = false := by
            revert hf
            cases s.isFadingOut <;> simp
          rw [sleepTick_nofade s hp (by omega) (by omega) hf'] at hfad
          exact absurd hfad (by simp [hf'])
  · intro h1
    rw [sleepTick_expiry s hp h1]
    exact ⟨by simp [hp], rfl, rfl, rfl, rfl⟩

theorem sleep_fade_formula_witness :
    (((sleepTick ⟨15, 16, true, 4/5, 1/2, true⟩).isFadingOut = true →
      0 < (sleepTick ⟨15, 16, true, 4/5, 1/2, true⟩).sleepRemaining →
      (sleepTick ⟨15, 16, true, 4/5, 1/2, true⟩).volume =
        max 0 ((⟨15, 16, true, 4/5, 1/2, true⟩ : SleepState).originalVolume *
          ((sleepTick ⟨15, 16, true, 4/5, 1/2, true⟩).sleepRemaining : Rat) / 30)) ∧
    ((⟨15, 16, true, 4/5, 1/2, true⟩ : SleepState).sleepRemaining = 1 →
      (sleepTick ⟨15, 16, true, 4/5, 1/2, true⟩).isPlaying = false ∧
      (sleepTick ⟨15, 16, true, 4/5, 1/2, true⟩).sleepDuration = 0 ∧
      (sleepTick ⟨15, 16, true, 4/5, 1/2, true⟩).isFadingOut = false ∧
      (sleepTick ⟨15, 16, true, 4/5, 1/2, true⟩).sleepRemaining = 0 ∧
      (sleepTick ⟨15, 16, true, 4/5, 1/2, true⟩).volume =
        (⟨15, 16, true, 4/5, 1/2, true⟩ : SleepState).originalVolume)) :=
  sleep_fade_formula ⟨15, 16, true, 4/5, 1/2, true⟩ rfl

/-- The C8 counterexample trace: set volume 0.8, play, arm a 15-minute
timer (capturing 0.8), change the volume to 0.5, then tick down to
`remaining = 30`. -/
def sC8a : SleepState :=
  sleepSetVolume (toggleSleepTimer (sleepTogglePlay
    (sleepSetVolume initSleepState (4/5)))) (1/2)

def sC8final : SleepState := sleepTick (sleepTicks 869 sC8a)

/-- C8 counterexample: at `remaining = 30` the fading flag is not yet set,
so the output volume is the user-set 0.5, not
`capturedVolume * remaining / 30 = 0.8`. -/
theorem sleep_fade_boundary_counterexample :
    sC8final.sleepRemaining = 30 ∧ sC8final.originalVolume = 4/5 ∧
    sC8final.volume = 1/2 ∧ sC8final.isFadingOut = false ∧
    sC8final.volume ≠
      max 0 (sC8final.originalVolume * (sC8final.sleepRemaining : Rat) / 30) := by
  have h1 : sC8a = ⟨15, 900, false, 4/5, 1/2, true⟩ := rfl
  have h2 : sleepTicks 869 sC8a = ⟨15, 31, false, 4/5, 1/2, true⟩ := by
    rw [h1, sleepTicks_coast 869 _ rfl rfl (by decide)]
    rfl
  have h3 : sC8final = ⟨15, 30, false, 4/5, 1/2, true⟩ := by
    show sleepTick (sleepTicks 869 sC8a) = _
    rw [h2]
    rfl
  rw [h3]
  refine ⟨rfl, rfl, rfl, rfl, ?_⟩
  rw [max_eq_right (by positivity)]
  norm_num

/-- The C4 counterexample trace: queue of three tracks, shuffle on, play
track A, draw one shuffled next (the oracle picks bag slot 0, moving to
track B and leaving index 2 in the bag), then `playTrack` on track C. -/
def stC4 : PlayerState :=
  playTrack (playNext (playTrack (toggleShuffleMode
    (setTracks (initPlayerState [0]) [tA, tB, tC])) tA)) tC

/-- C4 counterexample: after the trace, the shuffle bag still contains the
current index 2, so the bag invariant fails and the very next sampling in
`playNext` draws the current index again. -/
theorem bag_invariant_counterexample :
    stC4.shuffleBag = [2] ∧ stC4.currentTrackIndex = Option.some 2 ∧
    ¬ bagSamplingInvariant stC4 ∧
    (playNext stC4).currentTrackIndex = Option.some 2 := by
  refine ⟨?_, ?_, ?_, ?_⟩ <;> decide

/-- C4 amended: the exclusion holds at refill time only — whenever
`getNextShuffleIndex` refills the bag (empty bag, and either no completed
cycle yet or refill-after-cycle allowed, i.e. both the fresh-cycle and the
repeat-all refill paths), no index remaining in the bag equals the supplied
current index; the invariant is not preserved by `playTrack` or
shuffle-mode `playPrevious`. -/
theorem bag_refill_excludes_current (st : PlayerState) (ci : Int) (allow : Bool)
    (hbag : st.shuffleBag = [])
    (hnot : st.shuffleCycleComplete = false ∨ allow = true) :
    ∀ i ∈ (getNextShuffleIndex st (Option.some ci) allow).2.shuffleBag, i ≠ ci := by
  rw [getNext_refill_char st (Option.some ci) allow hbag hnot]
  by_cases hR : refillList st.tracks.length (Option.some ci) = []
  · intro i hi
    rw [hR] at hi
    unfold getNextShuffleIndex at hi
    rcases hnot with hcc | hb
    · simp [hcc, hR] at hi
    · simp [hb, hR] at hi
  · rw [getNext_draw_char _ (Option.some ci) allow (by simpa using hR)]
    intro i hi
    have hsub : i ∈ refillList st.tracks.length (Option.some ci) := by
      simpa using List.eraseIdx_subset _ _ hi
    exact mem_refillList_ne hsub

/-- The state used by the C4 witness: the repeat-all refill path (bag
empty, cycle already complete, refill-after-cycle allowed). -/
def stC4w : PlayerState :=
  { initPlayerState [] with
      tracks := [tA, tB, tC], shuffleMode := true, shuffleCycleComplete := true }

theorem bag_refill_excludes_current_witness :
    (getNextShuffleIndex stC4w (Option.some 0) true).2.shuffleBag = [2] ∧
    (2 : Int) ≠ (0 : Int) :=
  ⟨by decide, bag_refill_excludes_current stC4w 0 true rfl (Or.inr rfl) 2 (by decide)⟩

lemma auto_one_step (st : PlayerState) (h : st.repeatMode = RepeatMode.one) :
    (playNextAuto st).currentTrackIndex = st.currentTrackIndex ∧
    (playNextAuto st).repeatMode = RepeatMode.one := by
  unfold playNextAuto
  cases hci : st.currentTrackIndex with
  | none => simp [h, hci]
  | some ci =>
    by_cases htr : st.tracks.length = 0
    · simp [htr, h, hci]
    · simp only [htr, if_false, h, if_true, ite_true]
      cases hj : jsIndex st.tracks ci <;> simp [h, hci]

lemma auto_one_iter (n : Nat) : ∀ st : PlayerState, st.repeatMode = RepeatMode.one →
    (playNextAutoIter n st).currentTrackIndex = st.currentTrackIndex := by
  induction n with
  | zero => intro st _; rfl
  | succ n ih =>
    intro st h
    have hs := auto_one_step st h
    show (playNextAutoIter n (playNextAuto st)).currentTrackIndex = _
    rw [ih (playNextAuto st) hs.2, hs.1]

/-- C5: with repeat `one`, auto-advance never changes the current index no
matter how often it fires; each successful call re-supplies the same track
content under a fresh object identity (so an identity-based observer sees a
change) and sets the playback state to playing. -/
theorem repeat_one_auto_advance (st : PlayerState)
    (h : st.repeatMode = RepeatMode.one) :
    (∀ n, (playNextAutoIter n st).currentTrackIndex = st.currentTrackIndex) ∧
    (∀ ci cht, st.currentTrackIndex = Option.some ci →
      jsIndex st.tracks ci = Option.some cht →
      (playNextAuto st).isPlaying = true ∧
      (playNextAuto st).currentTrack = Option.some { cht with ref := st.objCtr } ∧
      (playNextAuto st).objCtr = st.objCtr + 1 ∧
      ∀ o, st.currentTrack = Option.some o → o.ref < st.objCtr →
        (playNextAuto st).currentTrack ≠ Option.some o) := by
  constructor
  · intro n
    exact auto_one_iter n st h
  · intro ci cht hci hj
    have htr : ¬ st.tracks.length = 0 := by
      intro h0
      rw [List.length_eq_zero] at h0
      rw [h0] at hj
      unfold jsIndex at hj
      by_cases hle : (0 : Int) ≤ ci <;> simp [hle] at hj
    have hres : playNextAuto st =
        { st with currentTrack := Option.some { cht with ref := st.objCtr },
                  objCtr := st.objCtr + 1, isPlaying := true } := by
      unfold playNextAuto
      rw [hci]
      simp only [htr, if_false, h, if_true, ite_true, hj]
    rw [hres]
    refine ⟨rfl, rfl, rfl, ?_⟩
    intro o _ ho hcontra
    have : ({ cht with ref := st.objCtr } : TrackObj) = o := by
      simpa using hcontra
    rw [← this] at ho
    simp at ho

/-- The state used for the C5 witness. -/
def stC5 : PlayerState :=
  { initPlayerState [] with
      tracks := [tA], currentTrack := Option.some tA,
      currentTrackIndex := Option.some 0, repeatMode := RepeatMode.one,
      objCtr := 5 }

theorem repeat_one_auto_advance_witness :
    (∀ n, (playNextAutoIter n stC5).currentTrackIndex = stC5.currentTrackIndex) ∧
    (∀ ci cht, stC5.currentTrackIndex = Option.some ci →
      jsIndex stC5.tracks ci = Option.some cht →
      (playNextAuto stC5).isPlaying = true ∧
      (playNextAuto stC5).currentTrack = Option.some { cht with ref := stC5.objCtr } ∧
      (playNextAuto stC5).objCtr = stC5.objCtr + 1 ∧
      ∀ o, stC5.currentTrack = Option.some o → o.ref < stC5.objCtr →
        (playNextAuto stC5).currentTrack ≠ Option.some o) :=
  repeat_one_auto_advance stC5 rfl

/-! History-stack lemmas for the bounded-history property. -/

lemma lastN_length_le (n : Nat) (l : List Int) : (lastN n l).length ≤ n := by
  unfold lastN
  rw [List.length_drop]
  omega

lemma lastN_of_le {n : Nat} {l : List Int} (h : l.length ≤ n) : lastN n l = l := by
  unfold lastN
  rw [Nat.sub_eq_zero_of_le h, List.drop_zero]

lemma pushHistory_eq_lastN (h : List Int) (x : Int) (hle : h.length ≤ 50) :
    pushHistory h x = lastN 50 (h ++ [x]) := by
  show (if (h ++ [x]).length > 50 then (h ++ [x]).tail else (h ++ [x])) =
    (h ++ [x]).drop ((h ++ [x]).length - 50)
  have hlen : (h ++ [x]).length = h.length + 1 := by
    rw [List.length_append]
    rfl
  by_cases hgt : (h ++ [x]).length > 50
  · rw [if_pos hgt]
    have h1 : (h ++ [x]).length - 50 = 1 := by omega
    rw [h1, List.drop_one]
  · rw [if_neg hgt]
    have h1 : (h ++ [x]).length - 50 = 0 := by omega
    rw [h1, List.drop_zero]

lemma lastN_append (n : Nat) (a b : List Int) :
    lastN n (lastN n a ++ b) = lastN n (a ++ b) := by
  by_cases h : a.length ≤ n
  · rw [lastN_of_le h]
  · push_neg at h
    have hd : (lastN n a).length = n := by
      unfold lastN
      rw [List.length_drop]
      omega
    show (lastN n a ++ b).drop ((lastN n a ++ b).length - n) =
      (a ++ b).drop ((a ++ b).length - n)
    rw [List.length_append, List.length_append, hd]
    have h1 : n + b.length - n = b.length := by omega
    have h2 : a.length + b.length - n = (a.length - n) + b.length := by omega
    rw [h1, h2, List.drop_append_eq_append_drop, List.drop_append_eq_append_drop]
    congr 1
    · show (a.drop (a.length - n)).drop b.length = _
      rw [List.drop_drop]
    · congr 1
      rw [hd]
      omega

lemma getNext_history (s : PlayerState) (ci : Option Int) (b : Bool) :
    (getNextShuffleIndex s ci b).2.shuffleHistory = s.shuffleHistory := by
  unfold getNextShuffleIndex
  by_cases h1 : s.shuffleBag.length = 0 ∧ s.shuffleCycleComplete = true ∧ b = false
  · rw [if_pos h1]
  · rw [if_neg h1]
    by_cases h2 : s.shuffleBag.length = 0
    · simp only [h2, if_true, ite_true]
      split <;> rfl
    · simp only [h2, if_false, ite_false]

lemma applyNavAuto_history (s : PlayerState) (n : Int) :
    (applyNavAuto s n).shuffleHistory = s.shuffleHistory := by
  unfold applyNavAuto
  split
  · cases hj : jsIndex s.tracks n <;> simp
  · simp

lemma playTrack_history (st : PlayerState) (t : TrackObj) :
    (playTrack st t).shuffleHistory =
      match st.currentTrackIndex with
      | Option.some ci => pushHistory st.shuffleHistory ci
      | Option.none => st.shuffleHistory := by
  unfold playTrack
  cases hci : st.currentTrackIndex <;> rfl

lemma playNext_history (st : PlayerState) :
    (playNext st).shuffleHistory =
      match st.currentTrackIndex with
      | Option.some ci =>
          if st.tracks.length = 0 then st.shuffleHistory
          else pushHistory st.shuffleHistory ci
      | Option.none => st.shuffleHistory := by
  unfold playNext
  cases hci : st.currentTrackIndex with
  | none => rfl
  | some ci =>
    by_cases htr : st.tracks.length = 0
    · simp [htr]
    · simp only [htr, if_false, ite_false]
      by_cases hsh : st.shuffleMode = true
      · simp only [hsh, if_true, ite_true]
        split
        · rw [getNext_history]
        · rw [(applyNav_frame _ _).2.1, getNext_history]
      · simp only [hsh, Bool.false_eq_true, if_false, ite_false]
        rw [(applyNav_frame _ _).2.1]

lemma playNextAuto_history (st : PlayerState) :
    (playNextAuto st).shuffleHistory =
      match st.currentTrackIndex with
      | Option.some ci =>
          if st.tracks.length = 0 then st.shuffleHistory
          else if st.repeatMode = RepeatMode.one then st.shuffleHistory
          else pushHistory st.shuffleHistory ci
      | Option.none => st.shuffleHistory := by
  unfold playNextAuto
  cases hci : st.currentTrackIndex with
  | none => rfl
  | some ci =>
    by_cases htr : st.tracks.length = 0
    · simp [htr]
    · simp only [htr, if_false, ite_false]
      by_cases hone : st.repeatMode = RepeatMode.one
      · simp only [hone, if_true, ite_true]
        cases hj : jsIndex st.tracks ci <;> simp
      · simp only [hone, if_false, ite_false]
        by_cases hsh : st.shuffleMode = true
        · simp only [hsh, if_true, ite_true]
          split
          · rw [getNext_history]
          · rw [applyNavAuto_history, getNext_history]
        · simp only [hsh, Bool.false_eq_true, if_false, ite_false]
          rw [applyNavAuto_history]

lemma navStep_history (st : PlayerState) (op : NavOp)
    (hle : st.shuffleHistory.length ≤ 50) :
    (navStep st op).shuffleHistory =
      lastN 50 (st.shuffleHistory ++ navRecorded st op) ∧
    (navStep st op).shuffleHistory.length ≤ 50 := by
  have hmain : (navStep st op).shuffleHistory =
      lastN 50 (st.shuffleHistory ++ navRecorded st op) := by
    cases op with
    | track t =>
      show (playTrack st t).shuffleHistory = _
      rw [playTrack_history]
      cases hci : st.currentTrackIndex with
      | none =>
        show st.shuffleHistory = lastN 50 (st.shuffleHistory ++ navRecorded st (NavOp.track t))
        simp only [navRecorded, hci]
        rw [List.append_nil, lastN_of_le hle]
      | some ci =>
        show pushHistory st.shuffleHistory ci = _
        simp only [navRecorded, hci]
        exact pushHistory_eq_lastN _ _ hle
    | nxt =>
      show (playNext st).shuffleHistory = _
      rw [playNext_history]
      cases hci : st.currentTrackIndex with
      | none =>
        simp only [navRecorded, hci]
        rw [List.append_nil, lastN_of_le hle]
      | some ci =>
        by_cases htr : st.tracks.length = 0
        · simp only [navRecorded, hci, htr, if_true, ite_true]
          rw [List.append_nil, lastN_of_le hle]
        · simp only [navRecorded, hci, htr, if_false, ite_false]
          exact pushHistory_eq_lastN _ _ hle
    | auto =>
      show (playNextAuto st).shuffleHistory = _
      rw [playNextAuto_history]
      cases hci : st.currentTrackIndex with
      | none =>
        simp only [navRecorded, hci]
        rw [List.append_nil, lastN_of_le hle]
      | some ci =>
        by_cases htr : st.tracks.length = 0
        · simp only [navRecorded, hci, htr, if_true, ite_true]
          rw [List.append_nil, lastN_of_le hle]
        · by_cases hone : st.repeatMode = RepeatMode.one
          · simp only [navRecorded, hci, htr, hone, if_true, ite_true, if_false, ite_false]
            rw [List.append_nil, lastN_of_le hle]
          · simp only [navRecorded, hci, htr, hone, if_false, ite_false]
            exact pushHistory_eq_lastN _ _ hle
  refine ⟨hmain, ?_⟩
  rw [hmain]
  exact lastN_length_le _ _

/-- C9: after any sequence of navigation calls (`playTrack`, `playNext`,
`playNextAuto`) starting from a history of at most 50 entries, the history
stack has at most 50 entries, and its contents are exactly the most recent
at-most-50 recorded previous current indices, in order (oldest dropped on
overflow). -/
theorem bounded_history (st : PlayerState) (ops : List NavOp)
    (hle : st.shuffleHistory.length ≤ 50) :
    (runNav st ops).shuffleHistory.length ≤ 50 ∧
    (runNav st ops).shuffleHistory =
      lastN 50 (st.shuffleHistory ++ navRecordedAll st ops) := by
  induction ops generalizing st with
  | nil =>
    refine ⟨hle, ?_⟩
    show st.shuffleHistory = lastN 50 (st.shuffleHistory ++ [])
    rw [List.append_nil, lastN_of_le hle]
  | cons op ops ih =>
    have hstep := navStep_history st op hle
    have hrec := ih (navStep st op) hstep.2
    refine ⟨hrec.1, ?_⟩
    show (runNav (navStep st op) ops).shuffleHistory =
      lastN 50 (st.shuffleHistory ++
        (navRecorded st op ++ navRecordedAll (navStep st op) ops))
    rw [hrec.2, hstep.1, lastN_append, List.append_assoc]

/-- The state and call sequence used by the C9 witness. -/
def stC9 : PlayerState :=
  { initPlayerState [] with tracks := [tA, tB], currentTrackIndex := Option.some 0 }

def opsC9 : List NavOp := [NavOp.nxt, NavOp.nxt, NavOp.nxt]

theorem bounded_history_witness :
    (runNav stC9 opsC9).shuffleHistory.length ≤ 50 ∧
    (runNav stC9 opsC9).shuffleHistory =
      lastN 50 (stC9.shuffleHistory ++ navRecordedAll stC9 opsC9) :=
  bounded_history stC9 opsC9 (by decide)

lemma getNext_bag_bound (s : PlayerState) (ci : Option Int) (b : Bool)
    (hbag : s.shuffleBag = []) (hcc : s.shuffleCycleComplete = false) :
    ∀ i ∈ (getNextShuffleIndex s ci b).2.shuffleBag,
      0 ≤ i ∧ i < (s.tracks.length : Int) := by
  rw [getNext_refill_char s ci b hbag (Or.inl hcc)]
  by_cases hR : refillList s.tracks.length ci = []
  · intro i hi
    rw [hR] at hi
    unfold getNextShuffleIndex at hi
    simp [hcc, hR] at hi
  · rw [getNext_draw_char _ ci b (by simpa using hR)]
    intro i hi
    have hsub : i ∈ refillList s.tracks.length ci := by
      simpa using List.eraseIdx_subset _ _ hi
    exact mem_refillList hsub

lemma playNext_bag_bound (s : PlayerState) (hbag : s.shuffleBag = [])
    (hcc : s.shuffleCycleComplete = false) :
    ∀ i ∈ (playNext s).shuffleBag, 0 ≤ i ∧ i < (s.tracks.length : Int) := by
  unfold playNext
  cases hci : s.currentTrackIndex with
  | none =>
    intro i hi
    rw [hbag] at hi
    simp at hi
  | some ci =>
    by_cases htr : s.tracks.length = 0
    · simp only [htr, if_true, ite_true]
      intro i hi
      rw [hbag] at hi
      simp at hi
    · simp only [htr, if_false, ite_false]
      by_cases hsh : s.shuffleMode = true
      · simp only [hsh, if_true, ite_true]
        have hST := getNext_bag_bound
          { s with currentTrackIndex := Option.some ci, shuffleMode := true,
                   shuffleHistory := pushHistory s.shuffleHistory ci }
          (Option.some ci) (decide (s.repeatMode = RepeatMode.all)) hbag hcc
        intro i hi
        split at hi
        · exact hST i hi
        · rw [(applyNav_frame _ _).1] at hi
          exact hST i hi
      · simp only [hsh, Bool.false_eq_true, if_false, ite_false]
        intro i hi
        rw [(applyNav_frame _ _).1] at hi
        rw [hbag] at hi
        simp at hi

/-- C7: `setTracks` installs the new queue and resets the shuffle bag, the
history stack and the cycle-complete flag; `toggleShuffleMode` performs the
same reset; and a `playNext` right after a queue swap only ever leaves
indices of the new queue in the bag (the sampler is freshly initialised,
with no stale indices from the old queue length). -/
theorem queue_swap_resets_sampler (st : PlayerState) (ts : List TrackObj) :
    (setTracks st ts).shuffleBag = [] ∧
    (setTracks st ts).shuffleHistory = [] ∧
    (setTracks st ts).shuffleCycleComplete = false ∧
    (setTracks st ts).tracks = ts ∧
    (toggleShuffleMode st).shuffleBag = [] ∧
    (toggleShuffleMode st).shuffleHistory = [] ∧
    (toggleShuffleMode st).shuffleCycleComplete = false ∧
    ∀ i ∈ (playNext (setTracks st ts)).shuffleBag,
      0 ≤ i ∧ i < (ts.length : Int) :=
  ⟨rfl, rfl, rfl, rfl, rfl, rfl, rfl,
    playNext_bag_bound (setTracks st ts) rfl rfl⟩

/-! Lemmas for the shuffle-coverage property. -/

lemma getD_mem_of_lt {l : List Int} {n : Nat} (h : n < l.length) :
    l.getD n 0 ∈ l := by
  rw [List.getD_eq_getElem?_getD, List.getElem?_eq_getElem h]
  exact List.getElem_mem h

lemma perm_getD_cons_eraseIdx : ∀ (l : List Int) (i : Nat), i < l.length →
    (l.getD i 0 :: l.eraseIdx i).Perm l := by
  intro l
  induction l with
  | nil =>
    intro i hi
    simp at hi
  | cons a t ih =>
    intro i hi
    cases i with
    | zero => exact List.Perm.refl _
    | succ i =>
      have hi' : i < t.length := by simpa using hi
      show (t.getD i 0 :: a :: t.eraseIdx i).Perm (a :: t)
      exact (List.Perm.swap a (t.getD i 0) (t.eraseIdx i)).trans ((ih i hi').cons a)

/-- A manual shuffled `next` from a non-empty bag draws some bag slot `k`:
the drawn index becomes current, the slot is removed, the previous current
index is pushed to the history, and the cycle-complete flag is raised when
the bag empties. -/
lemma playNext_draw (s : PlayerState) (c : Int)
    (hci : s.currentTrackIndex = Option.some c) (hsh : s.shuffleMode = true)
    (hbag : s.shuffleBag ≠ [])
    (hrange : ∀ i ∈ s.shuffleBag, 0 ≤ i ∧ i < (s.tracks.length : Int)) :
    ∃ k : Nat, k < s.shuffleBag.length ∧
      playNext s =
        { s with shuffleHistory := pushHistory s.shuffleHistory c,
                 shuffleBag := s.shuffleBag.eraseIdx k,
                 rng := s.rng.tail,
                 shuffleCycleComplete :=
                   if (s.shuffleBag.eraseIdx k).length = 0 then true
                   else s.shuffleCycleComplete,
                 currentTrack := jsIndex s.tracks (s.shuffleBag.getD k 0),
                 currentTrackIndex := Option.some (s.shuffleBag.getD k 0),
                 isPlaying := true } := by
  obtain ⟨ct, ip, vol, mu, tks, cti, rep, sh, bag, hist, cc, rng, oc⟩ := s
  simp only at hci hsh hbag hrange ⊢
  subst hci hsh
  have hlen0 : bag.length ≠ 0 := by simpa [List.length_eq_zero] using hbag
  have hpos : 0 < bag.length := Nat.pos_of_ne_zero hlen0
  refine ⟨rng.headD 0 % bag.length, Nat.mod_lt _ hpos, ?_⟩
  have hkl : rng.headD 0 % bag.length < bag.length := Nat.mod_lt _ hpos
  have hmem : bag.getD (rng.headD 0 % bag.length) 0 ∈ bag := getD_mem_of_lt hkl
  obtain ⟨hx0, hxlt⟩ := hrange _ hmem
  have htr0 : ¬ tks.length = 0 := by
    intro h0
    rw [h0] at hxlt
    omega
  unfold playNext
  dsimp only
  rw [if_neg htr0, if_pos rfl]
  rw [getNext_draw_char
    ⟨ct, ip, vol, mu, tks, Option.some c, rep, true, bag,
      pushHistory hist c, cc, rng, oc⟩
    (Option.some c) (decide (rep = RepeatMode.all)) hbag]
  dsimp only
  have hne : ¬ (bag.getD (rng.headD 0 % bag.length) 0 = (-1 : Int)) := by
    intro hcon
    rw [hcon] at hx0
    norm_num at hx0
  rw [if_neg hne]
  unfold applyNav
  dsimp only
  rw [if_pos ⟨hx0, hxlt⟩]
  have hlt : (bag.getD (rng.headD 0 % bag.length) 0).toNat < tks.length := by omega
  have hnt : jsIndex tks (bag.getD (rng.headD 0 % bag.length) 0) =
      Option.some (tks.get ⟨(bag.getD (rng.headD 0 % bag.length) 0).toNat, hlt⟩) := by
    unfold jsIndex
    rw [if_pos hx0, List.get?_eq_get hlt]
  rw [hnt]

/-- Running the draws: starting from a state whose bag has `n` in-range
indices, the next `n` manual shuffled `next` calls visit exactly the bag
contents, in some order, leaving the bag empty. -/
lemma drawRun (n : Nat) : ∀ (st : PlayerState),
    st.shuffleMode = true →
    (∃ c, st.currentTrackIndex = Option.some c) →
    (∀ i ∈ st.shuffleBag, 0 ≤ i ∧ i < (st.tracks.length : Int)) →
    st.shuffleBag.length = n →
    ∃ l : List Int,
      ((List.range n).map
        (fun j => (playNextIter (j+1) st).currentTrackIndex)) = l.map Option.some ∧
      l.Perm st.shuffleBag ∧
      (playNextIter n st).shuffleBag = [] := by
  induction n with
  | zero =>
    intro st _ _ _ hlen
    rw [List.length_eq_zero] at hlen
    exact ⟨[], by simp, by simp [hlen], by simpa using hlen⟩
  | succ n ih =>
    intro st hsh hex hrange hlen
    obtain ⟨c, hci⟩ := hex
    have hbag : st.shuffleBag ≠ [] := by
      intro h0
      rw [h0] at hlen
      simp at hlen
    obtain ⟨k, hk, hstep⟩ := playNext_draw st c hci hsh hbag hrange
    have hbag' : (playNext st).shuffleBag = st.shuffleBag.eraseIdx k := by
      rw [hstep]
    have hlen' : (playNext st).shuffleBag.length = n := by
      rw [hbag', List.length_eraseIdx_of_lt hk]
      omega
    have hsh' : (playNext st).shuffleMode = true := by
      rw [hstep]
      exact hsh
    have hci' : (playNext st).currentTrackIndex =
        Option.some (st.shuffleBag.getD k 0) := by
      rw [hstep]
    have htrk : (playNext st).tracks = st.tracks := by
      rw [hstep]
    have hrange' : ∀ i ∈ (playNext st).shuffleBag,
        0 ≤ i ∧ i < ((playNext st).tracks.length : Int) := by
      intro i hi
      rw [hbag'] at hi
      rw [htrk]
      exact hrange i (List.eraseIdx_subset _ _ hi)
    obtain ⟨l', hvis', hperm', hempty'⟩ :=
      ih (playNext st) hsh' ⟨_, hci'⟩ hrange' hlen'
    refine ⟨st.shuffleBag.getD k 0 :: l', ?_, ?_, ?_⟩
    · rw [List.range_succ_eq_map, List.map_cons, List.map_map, List.map_cons]
      congr 1
    · refine (hperm'.cons _).trans ?_
      rw [hbag']
      exact perm_getD_cons_eraseIdx _ k hk
    · show (playNextIter n (playNext st)).shuffleBag = []
      exact hempty'

/-- A shuffled manual `next` from an empty bag with no completed cycle is
the same as first refilling the bag (with every index except the current
one) and then drawing. -/
lemma playNext_refill (s : PlayerState) (c : Int)
    (hci : s.currentTrackIndex = Option.some c) (hsh : s.shuffleMode = true)
    (hbag : s.shuffleBag = []) (hcc : s.shuffleCycleComplete = false)
    (htr : s.tracks.length ≠ 0) :
    playNext s =
      playNext { s with shuffleBag := refillList s.tracks.length (Option.some c) } := by
  obtain ⟨ct, ip, vol, mu, tks, cti, rep, sh, bag, hist, cc2, rng, oc⟩ := s
  simp only at hci hsh hbag hcc htr ⊢
  subst hci hsh hbag hcc
  unfold playNext
  dsimp only
  rw [if_neg htr, if_neg htr, if_pos rfl, if_pos rfl]
  rw [getNext_refill_char
    ⟨ct, ip, vol, mu, tks, Option.some c, rep, true, [],
      pushHistory hist c, false, rng, oc⟩
    (Option.some c) (decide (rep = RepeatMode.all)) rfl (Or.inl rfl)]

lemma refillList_some_eq (len : Nat) (c : Int) :
    refillList len (Option.some c) =
      ((List.range len).map (fun i : Nat => (i : Int))).filter
        (fun i => decide (i ≠ c)) := by
  unfold refillList
  apply List.filter_congr
  intro i _
  simp

lemma length_filter_ne (a : Int) : ∀ (l : List Int), l.Nodup → a ∈ l →
    (l.filter (fun i => decide (i ≠ a))).length + 1 = l.length := by
  intro l
  induction l with
  | nil =>
    intro _ hmem
    simp at hmem
  | cons b t ih =>
    intro hnd hmem
    rw [List.nodup_cons] at hnd
    rw [List.filter_cons]
    by_cases hba : b = a
    · subst hba
      simp only [ne_eq, not_true_eq_false, decide_False, Bool.false_eq_true, if_false]
      have hft : t.filter (fun i => decide (i ≠ b)) = t := by
        rw [List.filter_eq_self]
        intro x hx
        simp only [ne_eq, decide_eq_true_eq]
        intro hxb
        exact hnd.1 (hxb ▸ hx)
      rw [hft]
      simp
    · have hbt : decide (b ≠ a) = true := by simp [hba]
      rw [hbt]
      have hmem' : a ∈ t := by
        rcases List.mem_cons.mp hmem with h | h
        · exact absurd h.symm hba
        · exact h
      simp only [if_true, List.length_cons]
      rw [← ih hnd.2 hmem']

lemma nodup_rangeInt (K : Nat) :
    ((List.range K).map (fun i : Nat => (i : Int))).Nodup := by
  refine List.Nodup.map ?_ (List.nodup_range K)
  intro a b hab
  simpa using hab

lemma mem_rangeInt {K : Nat} {c : Int} (hc0 : 0 ≤ c) (hcK : c < (K : Int)) :
    c ∈ (List.range K).map (fun i : Nat => (i : Int)) := by
  refine List.mem_map.mpr ⟨c.toNat, List.mem_range.mpr (by omega), ?_⟩
  omega

/-- C6: starting from a freshly reset shuffle sampler (empty bag, no
completed cycle) with repeat `all` and a valid current index `c` in a queue
of length `K`, the first `K - 1` manual `next` calls visit every index
other than `c` exactly once — a permutation of them, for every possible
sequence of random draws — and the bag is empty again afterwards, so the
`K`-th call is the one that refills. -/
theorem shuffle_coverage (st : PlayerState) (c : Int) (K : Nat)
    (hK : st.tracks.length = K) (hK1 : 1 ≤ K)
    (hsh : st.shuffleMode = true) (_hrep : st.repeatMode = RepeatMode.all)
    (hbag : st.shuffleBag = []) (hcc : st.shuffleCycleComplete = false)
    (hci : st.currentTrackIndex = Option.some c)
    (hc0 : 0 ≤ c) (hcK : c < (K : Int)) :
    ∃ l : List Int,
      ((List.range (K - 1)).map
        (fun j => (playNextIter (j+1) st).currentTrackIndex)) = l.map Option.some ∧
      l.Perm (((List.range K).map (fun i : Nat => (i : Int))).filter
        (fun i => decide (i ≠ c))) ∧
      (playNextIter (K - 1) st).shuffleBag = [] := by
  have hlenR : (((List.range K).map (fun i : Nat => (i : Int))).filter
      (fun i => decide (i ≠ c))).length + 1 = K := by
    rw [length_filter_ne c _ (nodup_rangeInt K) (mem_rangeInt hc0 hcK)]
    rw [List.length_map, List.length_range]
  by_cases hKone : K = 1
  · subst hKone
    have hF : (((List.range 1).map (fun i : Nat => (i : Int))).filter
        (fun i => decide (i ≠ c))) = [] := by
      rw [← List.length_eq_zero]
      omega
    refine ⟨[], by simp, ?_, ?_⟩
    · rw [hF]
    · show st.shuffleBag = []
      exact hbag
  · have htr0 : st.tracks.length ≠ 0 := by omega
    have heq := playNext_refill st c hci hsh hbag hcc htr0
    set stR : PlayerState :=
      { st with shuffleBag := refillList st.tracks.length (Option.some c) } with hstR
    have hbag2 : stR.shuffleBag =
        ((List.range K).map (fun i : Nat => (i : Int))).filter
          (fun i => decide (i ≠ c)) := by
      rw [hstR]
      show refillList st.tracks.length (Option.some c) = _
      rw [hK, refillList_some_eq]
    have hlen2 : stR.shuffleBag.length = K - 1 := by
      rw [hbag2]
      omega
    have hrange2 : ∀ i ∈ stR.shuffleBag, 0 ≤ i ∧ i < (stR.tracks.length : Int) := by
      intro i hi
      rw [hstR] at hi ⊢
      exact mem_refillList hi
    have hsh2 : stR.shuffleMode = true := by
      rw [hstR]
      exact hsh
    have hci2 : stR.currentTrackIndex = Option.some c := by
      rw [hstR]
      exact hci
    obtain ⟨l, hvis, hperm, hemp⟩ :=
      drawRun (K - 1) stR hsh2 ⟨c, hci2⟩ hrange2 hlen2
    have hiter : ∀ m, playNextIter (m+1) st = playNextIter (m+1) stR := by
      intro m
      show playNextIter m (playNext st) = playNextIter m (playNext stR)
      rw [heq]
    refine ⟨l, ?_, ?_, ?_⟩
    · rw [← hvis]
      have hfun : (fun j => (playNextIter (j+1) st).currentTrackIndex) =
          (fun j => (playNextIter (j+1) stR).currentTrackIndex) := by
        funext m
        rw [hiter m]
      rw [hfun]
    · rw [← hbag2]
      exact hperm
    · have hKm : K - 1 = (K - 2) + 1 := by omega
      rw [hKm, hiter (K - 2)]
      rw [hKm] at hemp
      exact hemp

/-- The state used by the C6 witness: three tracks, shuffle on, repeat all,
fresh sampler, current index 0. -/
def stC6 : PlayerState :=
  { initPlayerState [1, 0] with
      tracks := [tA, tB, tC], currentTrack := Option.some tA,
      currentTrackIndex := Option.some 0, shuffleMode := true,
      repeatMode := RepeatMode.all, isPlaying := true }

theorem shuffle_coverage_witness :
    ∃ l : List Int,
      ((List.range (3 - 1)).map
        (fun j => (playNextIter (j+1) stC6).currentTrackIndex)) = l.map Option.some ∧
      l.Perm (((List.range 3).map (fun i : Nat => (i : Int))).filter
        (fun i => decide (i ≠ (0 : Int)))) ∧
      (playNextIter (3 - 1) stC6).shuffleBag = [] :=
  shuffle_coverage stC6 0 3 rfl (by decide) rfl rfl rfl rfl rfl (by decide) (by decide)

end MusicLib
